import Mathlib

/-!
Verification of the client-side job-progress engine of the
whatsapp-automation repository.

The definitions below are a shallow embedding of the JavaScript source:
- `src/App.jsx` — polling effect (log merge, classification, completion
  check), `handleStartSending`, `showToast`;
- `src/FileDropzone.jsx` — `validateFile`, `handleFileInput`, `handleDrop`;
- `src/Toast.jsx` — the auto-close timer and `handleClose`.

JavaScript strings are modelled as Lean `String`, with the string
operations the source uses (`includes`, `toLowerCase`, `split('.')`,
`pop()`) re-implemented over the underlying character list so that they
are kernel-computable.  `Char.toLower`, like JavaScript `toLowerCase`,
lower-cases the ASCII range; every string the source compares against
(`"success"`, `"error"`, `"failed"`, the extension allow-lists) is ASCII,
and the marker characters `'✓'`/`'✗'` are fixed points of both.
React state updates inside one handler are sequenced, so each handler is
embedded as a pure function from the pre-state (plus the network response
it consumes) to the post-state.
-/

namespace BulkSender

/-- Whether `sub` occurs at the start of `l`. -/
def hasPrefixChars : List Char → List Char → Bool
  | [], _ => true
  | _ :: _, [] => false
  | a :: as, b :: bs => a == b && hasPrefixChars as bs

/-- Whether `sub` occurs contiguously somewhere in `l` — the
character-list semantics of JavaScript `String.includes`. -/
def occursIn (sub : List Char) : List Char → Bool
  | [] => sub.isEmpty
  | c :: rest => hasPrefixChars sub (c :: rest) || occursIn sub rest

/-- JavaScript `s.includes(sub)`. -/
def jsIncludes (s sub : String) : Bool :=
  occursIn sub.data s.data

/-- JavaScript `s.toLowerCase()` (ASCII range, which covers every
comparison the source performs). -/
def jsToLower (s : String) : String :=
  ⟨s.data.map Char.toLower⟩

/-- Log entry kind, the `type` field of the objects built in the polling
effect of `App.jsx` (lines 59–65). -/
inductive LogType
  | info
  | success
  | error
deriving DecidableEq

/-- One entry of the activity log: `{ type, message }` in `App.jsx`. -/
structure LogEntry where
  type : LogType
  message : String
deriving DecidableEq

/-- The success-marker test of `App.jsx` line 59:
`logMessage.includes('✓') || logMessage.toLowerCase().includes('success')`. -/
def hasSuccessMarker (t : String) : Bool :=
  jsIncludes t "✓" || jsIncludes (jsToLower t) "success"

/-- The error-marker test of `App.jsx` line 61:
`logMessage.includes('✗') || logMessage.toLowerCase().includes('error')
|| logMessage.toLowerCase().includes('failed')`. -/
def hasErrorMarker (t : String) : Bool :=
  jsIncludes t "✗" || jsIncludes (jsToLower t) "error"
    || jsIncludes (jsToLower t) "failed"

/-- The log classifier of `App.jsx` lines 57–66: the if/else-if/else
chain applied to each new server log message. -/
def classifyLog (logMessage : String) : LogEntry :=
  if jsIncludes logMessage "✓" || jsIncludes (jsToLower logMessage) "success" then
    ⟨LogType.success, logMessage⟩
  else if jsIncludes logMessage "✗" || jsIncludes (jsToLower logMessage) "error"
      || jsIncludes (jsToLower logMessage) "failed" then
    ⟨LogType.error, logMessage⟩
  else
    ⟨LogType.info, logMessage⟩

/-- The log-merge step of `App.jsx` lines 56–70: when the server reports
more log lines than are held locally, classify exactly the trailing new
lines (`data.logs.slice(logs.length)`) and append them; otherwise leave
the history untouched. -/
def mergeLogs (logs : List LogEntry) (serverLogs : List String) : List LogEntry :=
  if logs.length < serverLogs.length then
    logs ++ (serverLogs.drop logs.length).map classifyLog
  else
    logs

/-- Run a sequence of server log feeds through the merge step, starting
from an empty `LogHistory`. -/
def processFeeds (feeds : List (List String)) : List LogEntry :=
  feeds.foldl mergeLogs []

/-- The largest `logs.length` ever reported across a sequence of feeds. -/
def maxFeedLen (feeds : List (List String)) : Nat :=
  feeds.foldl (fun n f => max n f.length) 0

/-- The `progress` state of `App.jsx`: `{ current, total }`. -/
structure Progress where
  current : Nat
  total : Nat
deriving DecidableEq

/-- A decoded successful `/api/progress` body:
`{ current, total, logs, is_active }`.  `logs` is optional because the
source guards with `data.logs && ...`. -/
structure PollData where
  current : Nat
  total : Nat
  logs : Option (List String)
  isActive : Bool
deriving DecidableEq

/-- A decoded `/api/status` body: `{ successCount, failureCount }`. -/
structure FinalStatus where
  successCount : Nat
  failureCount : Nat
deriving DecidableEq

/-- The `toast` state of `App.jsx`: `{ message, type }`. -/
structure ToastState where
  message : String
  type : String
deriving DecidableEq

/-- The outcome of one poll cycle's `/api/progress` request.  `fail`
covers both a thrown fetch (the outer `catch`) and a non-ok response
(the `!response.ok` guard); `ok` carries the decoded body together with
the outcome of the `/api/status` fetch that the completion branch would
perform (`Except.error` models that fetch throwing, caught at
`catch (statusError)`). -/
inductive PollResult
  | fail
  | ok (d : PollData) (finalStatus : Except Unit FinalStatus)

/-- A selected browser file; only its `name` matters to the source logic. -/
structure JsFile where
  name : String
deriving DecidableEq

/-- The React state of the `App` component that the engine reads and
writes: the two file slots, `isSending`, `progress`, `logs`, `toast`. -/
structure AppState where
  recipientsFile : Option JsFile
  attachmentFile : Option JsFile
  isSending : Bool
  progress : Progress
  logs : List LogEntry
  toast : ToastState
deriving DecidableEq

/-- The completion toast chosen in `App.jsx` lines 82–89 from the final
`/api/status` body. -/
def completionToast (final : FinalStatus) : ToastState :=
  if final.failureCount = 0 then
    ⟨"All " ++ toString final.successCount ++ " messages sent successfully!", "success"⟩
  else
    ⟨"Completed: " ++ toString final.successCount ++ " sent, "
        ++ toString final.failureCount ++ " failed",
      if 0 < final.successCount then "success" else "error"⟩

/-- The log history resulting from the merge of one decoded poll body
into a session state — `data.logs && data.logs.length > logs.length`
guards the merge, so an absent `logs` field leaves the history alone. -/
def mergedLogs (s : AppState) (d : PollData) : List LogEntry :=
  match d.logs with
  | none => s.logs
  | some serverLogs => mergeLogs s.logs serverLogs

/-- One poll cycle of the `App.jsx` polling effect (lines 40–98).  On a
failed request (`!response.ok` return, or the outer `catch`) nothing is
touched.  On success: overwrite `progress`, merge new log lines, and if
`!data.is_active && data.total > 0` clear `isSending` and show the
completion toast built from the `/api/status` response (or none, if that
fetch threw). -/
def pollStep (s : AppState) (r : PollResult) : AppState :=
  match r with
  | PollResult.fail => s
  | PollResult.ok d finalStatus =>
      if d.isActive = false ∧ 0 < d.total then
        match finalStatus with
        | Except.ok final =>
            { s with
              progress := ⟨d.current, d.total⟩
              logs := mergedLogs s d
              isSending := false
              toast := completionToast final }
        | Except.error _ =>
            { s with
              progress := ⟨d.current, d.total⟩
              logs := mergedLogs s d
              isSending := false }
      else
        { s with
          progress := ⟨d.current, d.total⟩
          logs := mergedLogs s d }

/-- The outcome of the `/api/send` POST in `handleStartSending`.
`failed` covers both a thrown fetch and a non-ok response (the source
rethrows the latter into the same `catch`); its argument is the
resulting `error.message`.  `accepted` carries `result.message`, with
`""` modelling an absent field (JavaScript `result.message || default`). -/
inductive LaunchResult
  | failed (errMessage : String)
  | accepted (message : String)

/-- The `handleStartSending` handler of `App.jsx` lines 141–207, as a function from
the pre-state and the launch outcome to the post-state paired with the
number of network requests issued.  With no recipients file it only
raises the error toast and returns (0 requests); otherwise it resets
`logs`/`progress`, seeds the initializing entry, issues the request, and
appends either the acceptance message or an error entry. -/
def handleStartSending (s : AppState) (result : LaunchResult) : AppState × Nat :=
  match s.recipientsFile with
  | none =>
      ({ s with toast := ⟨"Please select a recipients Excel file", "error"⟩ }, 0)
  | some recipients =>
      let started := { s with
        isSending := true
        progress := (⟨0, 0⟩ : Progress)
        logs := [⟨LogType.info,
          "Initializing bulk send process with " ++ recipients.name ++ "..."⟩] }
      match result with
      | LaunchResult.accepted message =>
          ({ started with logs := started.logs ++
              [⟨LogType.info,
                if message = "" then "Bulk sending process started successfully"
                else message⟩] }, 1)
      | LaunchResult.failed errMessage =>
          ({ started with
              logs := started.logs ++ [⟨LogType.error, "Error: " ++ errMessage⟩]
              toast := ⟨"Failed to start sending process. Please check your connection and try again.", "error"⟩
              isSending := false }, 1)

/-- JavaScript `name.split('.')` for the one-character separator `'.'`,
over the character list. -/
def splitOnDot : List Char → List (List Char)
  | [] => [[]]
  | c :: cs =>
      if c = '.' then
        [] :: splitOnDot cs
      else
        match splitOnDot cs with
        | [] => [[c]]
        | g :: gs => (c :: g) :: gs

/-- The extension computed in `FileDropzone.jsx` line 29:
`'.' + file.name.split('.').pop().toLowerCase()`. -/
def extOf (name : String) : String :=
  ⟨'.' :: (((splitOnDot name.data).getLastD []).map Char.toLower)⟩

/-- The `validateFile` check of `FileDropzone.jsx` lines 28–31:
`acceptedFormats.includes(extension)`. -/
def validateFile (acceptedFormats : List String) (file : JsFile) : Bool :=
  acceptedFormats.contains (extOf file.name)

/-- The `handleFileInput` handler of `FileDropzone.jsx` lines 37–48, as a function
from the current selection and the chosen file to the resulting
selection paired with whether `onFileSelect` was invoked. -/
def handleFileInput (acceptedFormats : List String) (current : Option JsFile)
    (candidate : Option JsFile) : Option JsFile × Bool :=
  match candidate with
  | none => (current, false)
  | some file =>
      if validateFile acceptedFormats file then
        (some file, true)
      else
        (current, false)

/-- The `handleDrop` handler of `FileDropzone.jsx` lines 75–91: ignore the drop when
disabled or empty, otherwise validate `files[0]` and invoke
`onFileSelect` only on success. -/
def handleDrop (acceptedFormats : List String) (disabled : Bool)
    (current : Option JsFile) (droppedFiles : List JsFile) : Option JsFile × Bool :=
  if disabled then
    (current, false)
  else
    match droppedFiles with
    | [] => (current, false)
    | file :: _ =>
        if validateFile acceptedFormats file then
          (some file, true)
        else
          (current, false)

/-- Phase of a displayed toast at a given time. -/
inductive ToastPhase
  | shown
  | exiting
  | cleared
deriving DecidableEq

/-- Timeline of a toast shown at time 0 with auto-close duration
`duration` and no manual dismissal, from `Toast.jsx`: the auto-close
effect (lines 38–46) arms `setTimeout(handleClose, duration)` only when
`duration > 0`; `handleClose` (lines 54–62) enters the exit animation
(`translate-x-full opacity-0`) and 300ms later clears the toast via
`onClose()`.  With `duration = 0` no timer is armed and the toast stays
shown. -/
def toastPhaseAt (duration t : Nat) : ToastPhase :=
  if duration = 0 then
    ToastPhase.shown
  else if t < duration then
    ToastPhase.shown
  else if t < duration + 300 then
    ToastPhase.exiting
  else
    ToastPhase.cleared

/-- Whether the toast is displayed (visible to the user) at time `t`:
only the `shown` phase — while `exiting` the element is off-screen at
zero opacity, and after `onClose()` it is unmounted. -/
def toastDisplayedAt (duration t : Nat) : Bool :=
  match toastPhaseAt duration t with
  | ToastPhase.shown => true
  | _ => false

/-- An idle session with no recipients file selected. -/
def idleEmpty : AppState :=
  ⟨none, none, false, ⟨0, 0⟩, [], ⟨"", ""⟩⟩

/-- An idle session with a recipients file selected. -/
def idleReady : AppState :=
  ⟨some ⟨"contacts.xlsx"⟩, none, false, ⟨0, 0⟩, [], ⟨"", ""⟩⟩

/-- A session in the `Sending` state with an empty log history, as at
the start of the §8 two-response scenario. -/
def sendingState : AppState :=
  ⟨some ⟨"contacts.xlsx"⟩, none, true, ⟨0, 0⟩, [], ⟨"", ""⟩⟩

/-- The two poll responses of the §8 scenario. -/
def scenarioResponses : List PollResult :=
  [PollResult.ok ⟨3, 10, some ["a", "b", "c"], true⟩ (Except.error ()),
   PollResult.ok ⟨10, 10, some ["a", "b", "c", "d ✓", "error: e"], false⟩ (Except.error ())]

/-- Final state of the §8 scenario. -/
def scenarioFinal : AppState :=
  scenarioResponses.foldl pollStep sendingState

end BulkSender

namespace BulkSender

theorem classifyLog_message (m : String) : (classifyLog m).message = m := by
  unfold classifyLog
  split
  · rfl
  · split <;> rfl

theorem classifyLog_marker_form (t : String) :
    classifyLog t =
      if hasSuccessMarker t then ⟨LogType.success, t⟩
      else if hasErrorMarker t then ⟨LogType.error, t⟩
      else ⟨LogType.info, t⟩ := rfl

theorem mergeLogs_length (logs : List LogEntry) (serverLogs : List String) :
    (mergeLogs logs serverLogs).length = max logs.length serverLogs.length := by
  unfold mergeLogs
  split
  · rename_i hlt
    simp only [List.length_append, List.length_map, List.length_drop]
    omega
  · rename_i hge
    omega

theorem mergeLogs_of_le {logs : List LogEntry} {serverLogs : List String}
    (h : serverLogs.length ≤ logs.length) : mergeLogs logs serverLogs = logs := by
  unfold mergeLogs
  rw [if_neg (by omega)]

theorem mergeLogs_map_message {logs : List LogEntry} {serverLogs : List String}
    (h : logs.map LogEntry.message <+: serverLogs) :
    (mergeLogs logs serverLogs).map LogEntry.message = serverLogs := by
  obtain ⟨t, ht⟩ := h
  unfold mergeLogs
  split
  · rename_i hlt
    rw [List.map_append, List.map_map]
    have hmap : (LogEntry.message ∘ classifyLog) = id := by
      funext x
      exact classifyLog_message x
    rw [hmap, List.map_id]
    have hlen : logs.length = (logs.map LogEntry.message).length := by
      rw [List.length_map]
    rw [hlen, ← ht, List.drop_left]
  · rename_i hge
    have hlent := congrArg List.length ht
    simp only [List.length_append, List.length_map] at hlent
    exact List.IsPrefix.eq_of_length ⟨t, ht⟩ (by rw [List.length_map]; omega)

theorem processFeeds_length_aux (feeds : List (List String)) :
    ∀ acc : List LogEntry,
      (feeds.foldl mergeLogs acc).length
        = feeds.foldl (fun n f => max n f.length) acc.length := by
  induction feeds with
  | nil => intro acc; rfl
  | cons f rest ih =>
      intro acc
      rw [List.foldl_cons, List.foldl_cons, ih, mergeLogs_length]

theorem processFeeds_content_aux (feeds : List (List String)) :
    ∀ acc : List LogEntry,
      (∀ f ∈ feeds.head?, acc.map LogEntry.message <+: f) →
      List.Chain' (fun a b => a <+: b) feeds →
      (feeds.foldl mergeLogs acc).map LogEntry.message
        = feeds.getLastD (acc.map LogEntry.message) := by
  induction feeds with
  | nil => intro acc _ _; rfl
  | cons f rest ih =>
      intro acc hhead hchain
      have hpre : acc.map LogEntry.message <+: f := hhead f rfl
      obtain ⟨hstep, hrest⟩ := List.chain'_cons'.mp hchain
      rw [List.foldl_cons, List.getLastD_cons]
      have hmsg : (mergeLogs acc f).map LogEntry.message = f := mergeLogs_map_message hpre
      have hrec := ih (mergeLogs acc f) (fun g hg => by rw [hmsg]; exact hstep g hg) hrest
      rw [hrec, hmsg]

/-- Claim C1: over any cumulative (append-only) sequence of successful
poll responses processed by the merge step from an initially empty
LogHistory, the final length equals the maximum `logs.length` ever
reported, and the entries are exactly the reported server lines, once
each, in arrival order of first appearance (i.e. the longest feed). -/
theorem pollMerge_exactly_once (feeds : List (List String))
    (hchain : List.Chain' (fun a b => a <+: b) feeds) :
    (processFeeds feeds).length = maxFeedLen feeds ∧
    (processFeeds feeds).map LogEntry.message = feeds.getLastD [] := by
  constructor
  · exact processFeeds_length_aux feeds []
  · have h := processFeeds_content_aux feeds [] (fun f _ => ⟨f, rfl⟩) hchain
    simpa using h

/-- Witness for C1 at the concrete cumulative feed sequence
`[["a"], ["a", "b ✓"]]`. -/
theorem pollMerge_exactly_once_witness :
    (processFeeds [["a"], ["a", "b ✓"]]).length = maxFeedLen [["a"], ["a", "b ✓"]] ∧
    (processFeeds [["a"], ["a", "b ✓"]]).map LogEntry.message
      = [["a"], ["a", "b ✓"]].getLastD [] :=
  pollMerge_exactly_once [["a"], ["a", "b ✓"]] (List.chain'_pair.mpr ⟨["b ✓"], rfl⟩)

theorem pollStep_ok_logs (s : AppState) (d : PollData)
    (finalStatus : Except Unit FinalStatus) :
    (pollStep s (PollResult.ok d finalStatus)).logs = mergedLogs s d := by
  simp only [pollStep]
  split
  · split <;> rfl
  · rfl

theorem mergedLogs_pollStep (s : AppState) (d : PollData)
    (finalStatus : Except Unit FinalStatus) :
    mergedLogs (pollStep s (PollResult.ok d finalStatus)) d = mergedLogs s d := by
  unfold mergedLogs
  cases hd : d.logs with
  | none => rw [pollStep_ok_logs]; unfold mergedLogs; rw [hd]
  | some serverLogs =>
      rw [pollStep_ok_logs]
      unfold mergedLogs
      rw [hd]
      exact mergeLogs_of_le (by rw [mergeLogs_length]; omega)

/-- Claim C2: the log-merge step is idempotent — feeding the same poll
response twice in a row leaves LogHistory after the second feed exactly
as it was after the first (the server count no longer exceeds the local
count, so nothing is appended). -/
theorem pollMerge_idempotent (s : AppState) (d : PollData)
    (finalStatus : Except Unit FinalStatus) :
    (∀ (logs : List LogEntry) (serverLogs : List String),
        mergeLogs (mergeLogs logs serverLogs) serverLogs = mergeLogs logs serverLogs) ∧
    (pollStep (pollStep s (PollResult.ok d finalStatus)) (PollResult.ok d finalStatus)).logs
      = (pollStep s (PollResult.ok d finalStatus)).logs := by
  refine ⟨fun logs serverLogs => mergeLogs_of_le (by rw [mergeLogs_length]; omega), ?_⟩
  calc (pollStep (pollStep s (PollResult.ok d finalStatus)) (PollResult.ok d finalStatus)).logs
      = mergedLogs (pollStep s (PollResult.ok d finalStatus)) d :=
        pollStep_ok_logs _ _ _
    _ = mergedLogs s d := mergedLogs_pollStep _ _ _
    _ = (pollStep s (PollResult.ok d finalStatus)).logs := (pollStep_ok_logs _ _ _).symm


/-- Claim C3: while in Sending, a successfully decoded poll response
moves the run out of Sending (clears `isSending`) exactly when it
reports `active = false` and `total > 0`; in particular
`active=false, total=0` keeps the run in Sending and
`active=false, total=5` ends it. -/
theorem sendingExit_iff (s : AppState) (d : PollData)
    (finalStatus : Except Unit FinalStatus) (hs : s.isSending = true) :
    (pollStep s (PollResult.ok d finalStatus)).isSending = false
      ↔ (d.isActive = false ∧ 0 < d.total) := by
  simp only [pollStep]
  by_cases hc : d.isActive = false ∧ 0 < d.total
  · rw [if_pos hc]
    cases finalStatus with
    | ok final => simpa using hc
    | error e => simpa using hc
  · rw [if_neg hc]
    simpa [hs] using hc

/-- Witness for C3: `active=false, total=0` does not leave Sending,
while `active=false, total=5` does. -/
theorem sendingExit_iff_witness :
    ((pollStep sendingState (PollResult.ok ⟨0, 0, none, false⟩ (Except.error ()))).isSending = false
      ↔ ((false : Bool) = false ∧ 0 < 0)) ∧
    ((pollStep sendingState (PollResult.ok ⟨5, 5, none, false⟩ (Except.error ()))).isSending = false
      ↔ ((false : Bool) = false ∧ 0 < 5)) :=
  ⟨sendingExit_iff sendingState ⟨0, 0, none, false⟩ (Except.error ()) rfl,
   sendingExit_iff sendingState ⟨5, 5, none, false⟩ (Except.error ()) rfl⟩

/-- Claim C4: log classification is the pure total function of the
entry text given by the ordered cases of the source — a success marker
(`'✓'` or, case-insensitively, `"success"`) classifies as success, an
error marker (`'✗'` or, case-insensitively, `"error"`/`"failed"`) on a
text not already matched as success classifies as error, and every
other text as info — and on the two-response scenario of §8 it yields
exactly `[info a, info b, info c, success "d ✓", error "error: e"]`,
with the run Completed and progress `{10, 10}`. -/
theorem classifyLog_total_spec :
    (∀ t, hasSuccessMarker t = true → classifyLog t = ⟨LogType.success, t⟩) ∧
    (∀ t, hasSuccessMarker t = false → hasErrorMarker t = true →
        classifyLog t = ⟨LogType.error, t⟩) ∧
    (∀ t, hasSuccessMarker t = false → hasErrorMarker t = false →
        classifyLog t = ⟨LogType.info, t⟩) ∧
    (scenarioFinal.logs = [⟨LogType.info, "a"⟩, ⟨LogType.info, "b"⟩, ⟨LogType.info, "c"⟩,
        ⟨LogType.success, "d ✓"⟩, ⟨LogType.error, "error: e"⟩] ∧
      scenarioFinal.isSending = false ∧ scenarioFinal.progress = ⟨10, 10⟩) := by
  refine ⟨?_, ?_, ?_, by decide⟩
  · intro t h
    rw [classifyLog_marker_form, if_pos h]
  · intro t h1 h2
    rw [classifyLog_marker_form, if_neg (by simp [h1]), if_pos h2]
  · intro t h1 h2
    rw [classifyLog_marker_form, if_neg (by simp [h1]), if_neg (by simp [h2])]

/-- Witness for C4 at the three §8 scenario texts. -/
theorem classifyLog_total_spec_witness :
    classifyLog "d ✓" = ⟨LogType.success, "d ✓"⟩ ∧
    classifyLog "error: e" = ⟨LogType.error, "error: e"⟩ ∧
    classifyLog "a" = ⟨LogType.info, "a"⟩ :=
  ⟨classifyLog_total_spec.1 "d ✓" (by decide),
   classifyLog_total_spec.2.1 "error: e" (by decide) (by decide),
   classifyLog_total_spec.2.2.1 "a" (by decide) (by decide)⟩

/-- Claim C10: the success markers take precedence — any text with a
success marker is classified success even if it also carries an error
marker, and the error classification is only ever produced for texts
with no success marker. -/
theorem classify_success_precedence :
    (∀ t, hasSuccessMarker t = true → (classifyLog t).type = LogType.success) ∧
    (∀ t, (classifyLog t).type = LogType.error → hasSuccessMarker t = false) := by
  constructor
  · intro t h
    rw [classifyLog_marker_form, if_pos h]
  · intro t h
    by_contra hs
    rw [Bool.not_eq_false] at hs
    rw [classifyLog_marker_form, if_pos hs] at h
    exact LogType.noConfusion h

/-- Witness for C10: a text carrying both marker kinds is classified
success, and a text the code classifies error indeed has no success
marker. -/
theorem classify_success_precedence_witness :
    (classifyLog "error: retry ✓").type = LogType.success ∧
    hasSuccessMarker "error: e" = false :=
  ⟨classify_success_precedence.1 "error: retry ✓" (by decide),
   classify_success_precedence.2 "error: e" (by decide)⟩

/-- Claim C5: launching with no recipients file selected issues no
network request and leaves the whole run state (sending flag, logs,
progress, file slots) unchanged; its only effect is the error toast. -/
theorem launch_without_file (s : AppState) (result : LaunchResult)
    (h : s.recipientsFile = none) :
    (handleStartSending s result).2 = 0 ∧
    (handleStartSending s result).1.isSending = s.isSending ∧
    (handleStartSending s result).1.logs = s.logs ∧
    (handleStartSending s result).1.progress = s.progress ∧
    (handleStartSending s result).1.recipientsFile = s.recipientsFile ∧
    (handleStartSending s result).1.attachmentFile = s.attachmentFile ∧
    (handleStartSending s result).1.toast
      = ⟨"Please select a recipients Excel file", "error"⟩ := by
  unfold handleStartSending
  rw [h]
  simp

/-- Witness for C5 at the idle session with no file selected. -/
theorem launch_without_file_witness :
    (handleStartSending idleEmpty (LaunchResult.accepted "ok")).2 = 0 ∧
    (handleStartSending idleEmpty (LaunchResult.accepted "ok")).1.isSending
      = idleEmpty.isSending ∧
    (handleStartSending idleEmpty (LaunchResult.accepted "ok")).1.logs = idleEmpty.logs ∧
    (handleStartSending idleEmpty (LaunchResult.accepted "ok")).1.progress
      = idleEmpty.progress ∧
    (handleStartSending idleEmpty (LaunchResult.accepted "ok")).1.recipientsFile
      = idleEmpty.recipientsFile ∧
    (handleStartSending idleEmpty (LaunchResult.accepted "ok")).1.attachmentFile
      = idleEmpty.attachmentFile ∧
    (handleStartSending idleEmpty (LaunchResult.accepted "ok")).1.toast
      = ⟨"Please select a recipients Excel file", "error"⟩ :=
  launch_without_file idleEmpty (LaunchResult.accepted "ok") rfl

/-- Claim C6: a candidate file whose extension (case-insensitive, after
the last dot) is not in the accepted-formats list never triggers the
file-select callback, leaving the current selection untouched, both on
the file-input path and on the drag-and-drop path. -/
theorem rejectedFile_leaves_selection (acceptedFormats : List String)
    (current : Option JsFile) (file : JsFile)
    (h : acceptedFormats.contains (extOf file.name) = false) :
    handleFileInput acceptedFormats current (some file) = (current, false) ∧
    ∀ (disabled : Bool) (rest : List JsFile),
      handleDrop acceptedFormats disabled current (file :: rest) = (current, false) := by
  have hv : validateFile acceptedFormats file = false := h
  constructor
  · simp [handleFileInput, hv]
  · intro disabled rest
    cases disabled with
    | false => simp [handleDrop, hv]
    | true => simp [handleDrop]

/-- Witness for C6: a `.csv` candidate against the Excel allow-list
`[".xlsx", ".xls"]`, with a file already selected. -/
theorem rejectedFile_leaves_selection_witness :
    handleFileInput [".xlsx", ".xls"] (some ⟨"old.xlsx"⟩) (some ⟨"contacts.csv"⟩)
      = (some ⟨"old.xlsx"⟩, false) ∧
    handleDrop [".xlsx", ".xls"] false (some ⟨"old.xlsx"⟩) [⟨"contacts.csv"⟩]
      = (some ⟨"old.xlsx"⟩, false) :=
  ⟨(rejectedFile_leaves_selection [".xlsx", ".xls"] (some ⟨"old.xlsx"⟩) ⟨"contacts.csv"⟩
      (by decide)).1,
   (rejectedFile_leaves_selection [".xlsx", ".xls"] (some ⟨"old.xlsx"⟩) ⟨"contacts.csv"⟩
      (by decide)).2 false []⟩


/-- Claim C7: a poll cycle whose status request fails changes nothing
observable — the state (progress, logs, sending flag, toast, files) is
exactly what it was — and any number of consecutive failed cycles
likewise leaves the state untouched and the run still in Sending, so
polling continues with no retry cap. -/
theorem pollFailure_changes_nothing (s : AppState) (n : Nat)
    (hs : s.isSending = true) :
    pollStep s PollResult.fail = s ∧
    (List.replicate n PollResult.fail).foldl pollStep s = s ∧
    ((List.replicate n PollResult.fail).foldl pollStep s).isSending = true := by
  have h2 : ∀ m : Nat, (List.replicate m PollResult.fail).foldl pollStep s = s := by
    intro m
    induction m with
    | zero => rfl
    | succ k ih =>
        rw [List.replicate_succ, List.foldl_cons]
        exact ih
  exact ⟨rfl, h2 n, by rw [h2 n]; exact hs⟩

/-- Witness for C7: three consecutive failed cycles on a Sending
session. -/
theorem pollFailure_changes_nothing_witness :
    pollStep sendingState PollResult.fail = sendingState ∧
    (List.replicate 3 PollResult.fail).foldl pollStep sendingState = sendingState ∧
    ((List.replicate 3 PollResult.fail).foldl pollStep sendingState).isSending = true :=
  pollFailure_changes_nothing sendingState 3 rfl

/-- Claim C8: a toast shown with any positive duration auto-clears
after that duration without manual dismissal — at every time from the
duration onward it is no longer displayed (in particular one shown with
`duration = 100` is absent at 150ms) — while a toast shown with
`duration = 0` never auto-clears and stays displayed until manually
dismissed. -/
theorem toast_autoclear (duration t : Nat) (hpos : 0 < duration) (ht : duration ≤ t) :
    toastDisplayedAt duration t = false ∧ ∀ u : Nat, toastDisplayedAt 0 u = true := by
  constructor
  · unfold toastDisplayedAt toastPhaseAt
    rw [if_neg (by omega), if_neg (by omega)]
    by_cases h4 : t < duration + 300
    · rw [if_pos h4]
    · rw [if_neg h4]
  · intro u
    rfl

/-- Witness for C8 at duration 100 and time 150, and duration 0 at time
100000. -/
theorem toast_autoclear_witness :
    toastDisplayedAt 100 150 = false ∧ toastDisplayedAt 0 100000 = true :=
  ⟨(toast_autoclear 100 150 (by decide) (by decide)).1,
   (toast_autoclear 100 150 (by decide) (by decide)).2 100000⟩

/-- Claim C9: an accepted launch with a recipients file selected leaves
LogHistory non-empty before any poll runs: exactly the locally
generated initializing entry plus the acceptance-message entry, both
info; consequently the local count (2) exceeds a server report of at
most one log line, and the merge step then appends nothing. -/
theorem launch_seeds_logs (s : AppState) (recipients : JsFile) (message : String)
    (h : s.recipientsFile = some recipients) :
    (handleStartSending s (LaunchResult.accepted message)).1.logs =
      [⟨LogType.info, "Initializing bulk send process with " ++ recipients.name ++ "..."⟩,
       ⟨LogType.info,
         if message = "" then "Bulk sending process started successfully" else message⟩] ∧
    0 < (handleStartSending s (LaunchResult.accepted message)).1.logs.length ∧
    (∀ serverLogs : List String, serverLogs.length ≤ 1 →
      mergeLogs (handleStartSending s (LaunchResult.accepted message)).1.logs serverLogs
        = (handleStartSending s (LaunchResult.accepted message)).1.logs) := by
  have hl : (handleStartSending s (LaunchResult.accepted message)).1.logs =
      [⟨LogType.info, "Initializing bulk send process with " ++ recipients.name ++ "..."⟩,
       ⟨LogType.info,
         if message = "" then "Bulk sending process started successfully" else message⟩] := by
    unfold handleStartSending
    rw [h]
    rfl
  refine ⟨hl, by rw [hl]; simp, ?_⟩
  intro serverLogs hsl
  apply mergeLogs_of_le
  rw [hl]
  simp only [List.length_cons, List.length_nil]
  omega

/-- Witness for C9 at the ready idle session, acceptance message `"ok"`,
and a one-line server feed. -/
theorem launch_seeds_logs_witness :
    0 < (handleStartSending idleReady (LaunchResult.accepted "ok")).1.logs.length ∧
    mergeLogs (handleStartSending idleReady (LaunchResult.accepted "ok")).1.logs
        ["Job queued"]
      = (handleStartSending idleReady (LaunchResult.accepted "ok")).1.logs :=
  ⟨(launch_seeds_logs idleReady ⟨"contacts.xlsx"⟩ "ok" rfl).2.1,
   (launch_seeds_logs idleReady ⟨"contacts.xlsx"⟩ "ok" rfl).2.2 ["Job queued"] (by decide)⟩

end BulkSender
